import Mathlib

/-!
Shallow embedding of `validate_sql_files.py`, a rule-based line validator
that scans SQL migration files for TypeScript/JavaScript fragments.

Strings are modelled as lists of characters (`Str`), so that every
operation is structurally recursive and kernel-evaluable.  Python's string
methods are embedded as follows:

* `content.split('\n')`  → `splitLines`
* `line.strip()`         → `strip` (ASCII whitespace)
* `s.startswith(p)`      → `List.isPrefixOf p.data s`
* `s.endswith(p)`        → `List.isSuffixOf p.data s`
* `p in s`               → `containsSub p.data s`

The file-read step (`open`/`read`) is the only fallible operation; it is
modelled by an `Except Str Str` input: `.ok content` for a successful
read, `.error e` for a raised exception with message `e`.
-/

namespace SqlValidator

/-- Strings are lists of characters. -/
abbrev Str := List Char

/-- The ASCII whitespace characters removed by Python's `str.strip()`. -/
def isSpace (c : Char) : Bool :=
  c = ' ' || c = '\t' || c = '\n' || c = '\r' || c = '\x0b' || c = '\x0c'

/-- `line.strip()`: remove leading and trailing whitespace. -/
def strip (s : Str) : Str :=
  ((s.dropWhile isSpace).reverse.dropWhile isSpace).reverse

/-- `content.split('\n')`: split on every newline, keeping empty parts;
the empty string yields one empty line, as in Python. -/
def splitLines : Str → List Str
  | [] => [[]]
  | c :: cs =>
    if c = '\n' then [] :: splitLines cs
    else
      match splitLines cs with
      | [] => [[c]]
      | l :: ls => (c :: l) :: ls

/-- Python's substring test `needle in hay`. -/
def containsSub (needle : Str) : Str → Bool
  | [] => needle.isEmpty
  | c :: cs => needle.isPrefixOf (c :: cs) || containsSub needle cs

/-- Rule 1, import detection:
`line.startswith('import ') and ('from' in line or 'require(' in line)`. -/
def rule1 (line : Str) : Bool :=
  "import ".data.isPrefixOf line &&
    (containsSub "from".data line || containsSub "require(".data line)

/-- Rule 2, React-import detection:
`'import React' in line or 'import { React' in line`. -/
def rule2 (line : Str) : Bool :=
  containsSub "import React".data line ||
    containsSub "import \x7b React".data line

/-- Rule 3, the TypeScript type-annotation heuristic.  The source nests
two `if`s; the rule fires exactly when all conjuncts hold:
`':' in line and ('string' in line or 'boolean' in line or 'number' in line)
and not line.startswith('--')` and
`any(keyword in line for keyword in [...])`. -/
def rule3 (line : Str) : Bool :=
  (containsSub ":".data line &&
    (containsSub "string".data line || containsSub "boolean".data line ||
      containsSub "number".data line) &&
    !("--".data.isPrefixOf line)) &&
  (["interface ", "type ", "const ", "let ", "function ", "export "].any
    fun k => containsSub k.data line)

/-- Rule 4, JS/TS comment-syntax detection:
`line.startswith('//') or line.startswith('/*') or line.endswith('*/')`. -/
def rule4 (line : Str) : Bool :=
  "//".data.isPrefixOf line || "/*".data.isPrefixOf line ||
    "*/".data.isSuffixOf line

/-- The decimal rendering of a line number, as in an f-string. -/
def natStr (n : Nat) : Str := (toString n).data

/-- The common shape of the four f-strings:
`f"Line {i}<category>{line}"` with the category text in the middle. -/
def msgOf (i : Nat) (category : String) (line : Str) : Str :=
  "Line ".data ++ natStr i ++ category.data ++ line

/-- `f"Line {i}: Contains JavaScript/TypeScript import: {line}"`. -/
def msgImport (i : Nat) (line : Str) : Str :=
  msgOf i ": Contains JavaScript/TypeScript import: " line

/-- `f"Line {i}: Contains React import: {line}"`. -/
def msgReact (i : Nat) (line : Str) : Str :=
  msgOf i ": Contains React import: " line

/-- `f"Line {i}: Contains TypeScript code: {line}"`. -/
def msgTs (i : Nat) (line : Str) : Str :=
  msgOf i ": Contains TypeScript code: " line

/-- `f"Line {i}: Contains JavaScript/TypeScript comment: {line}"`. -/
def msgComment (i : Nat) (line : Str) : Str :=
  msgOf i ": Contains JavaScript/TypeScript comment: " line

/-- One iteration of the scanning loop: rebind `line` to its stripped
form, then evaluate the four rules in order, appending one message per
firing rule. -/
def checkLine (i : Nat) (raw : Str) : List Str :=
  let line := strip raw
  (if rule1 line then [msgImport i line] else []) ++
  (if rule2 line then [msgReact i line] else []) ++
  (if rule3 line then [msgTs i line] else []) ++
  (if rule4 line then [msgComment i line] else [])

/-- The whole scanning loop:
`for i, line in enumerate(content.split('\n'), 1): ...`. -/
def scanContent (content : Str) : List Str :=
  (List.enumFrom 1 (splitLines content)).flatMap fun p => checkLine p.1 p.2

/-- `validate_sql_file`: on a successful read, scan the content; on a
read exception, the `except` handler appends the single message
`f"Error reading file: {e}"`. -/
def validate_sql_file : Except Str Str → List Str
  | .ok content => scanContent content
  | .error e => ["Error reading file: ".data ++ e]

/-- The body of the `try` block, with exception propagation made
explicit: `.error e` is an exception escaping the block. -/
def readAndScan : Except Str Str → Except Str (List Str)
  | .ok content => .ok (scanContent content)
  | .error e => .error e

/-- `validate_sql_file` with exception propagation made explicit: the
`except Exception` handler converts any escaping exception into a
returned diagnostic, so the outer result is `.error` only if an
exception escapes the whole function. -/
def validate_sql_file_exc (r : Except Str Str) : Except Str (List Str) :=
  match readAndScan r with
  | .ok es => .ok es
  | .error e => .ok ["Error reading file: ".data ++ e]

/-- `all_errors` accumulated by `main` over the batch of files, each file
given by the outcome of its read step. -/
def batchErrors (files : List (Except Str Str)) : List Str :=
  files.flatMap validate_sql_file

/-- `main`: returns `False` when `all_errors` is non-empty, `True`
otherwise. -/
def main (files : List (Except Str Str)) : Bool :=
  if (batchErrors files).isEmpty then true else false

/-- `exit(0 if success else 1)`. -/
def exit_code (files : List (Except Str Str)) : Nat :=
  if main files then 0 else 1

/-! ### Helper lemmas -/

theorem mem_if_singleton {b : Bool} {x m : Str} :
    m ∈ (if b then [x] else ([] : List Str)) ↔ b = true ∧ m = x := by
  cases b <;> simp

theorem containsSub_correct (n h : Str) : containsSub n h = true ↔ n <:+: h := by
  induction h with
  | nil => simp [containsSub, List.isEmpty_iff, List.infix_nil]
  | cons c cs ih =>
    simp [containsSub, Bool.or_eq_true, List.isPrefixOf_iff_prefix, ih,
      List.infix_cons_iff]

theorem append_ne_append_of_ne_at (a b l l' : Str) (k : Nat)
    (hka : k < a.length) (hkb : k < b.length) (hne : a[k]? ≠ b[k]?) :
    a ++ l ≠ b ++ l' := by
  intro h
  apply hne
  have h1 : (a ++ l)[k]? = a[k]? := by simp [List.getElem?_append, hka]
  have h2 : (b ++ l')[k]? = b[k]? := by simp [List.getElem?_append, hkb]
  rw [← h1, ← h2, h]

theorem msgOf_ne {i : Nat} {l l' : Str} {c₁ c₂ : String} (k : Nat)
    (hk1 : k < c₁.data.length) (hk2 : k < c₂.data.length)
    (hne : c₁.data[k]? ≠ c₂.data[k]?) : msgOf i c₁ l ≠ msgOf i c₂ l' := by
  intro h
  simp only [msgOf, List.append_assoc] at h
  exact append_ne_append_of_ne_at _ _ _ _ k hk1 hk2 hne
    (List.append_cancel_left (List.append_cancel_left h))

theorem msgOf_as_append (i : Nat) (c : String) (l : Str) :
    msgOf i c l = ("Line ".data ++ natStr i ++ c.data) ++ l := by
  simp [msgOf, List.append_assoc]

theorem tail_contains (pre l : Str) : containsSub l (pre ++ l) = true :=
  (containsSub_correct _ _).mpr (List.IsSuffix.isInfix (List.suffix_append _ _))

theorem header_prefix (i : Nat) (c : String) (l : Str) :
    ("Line ".data ++ natStr i).isPrefixOf (msgOf i c l) = true := by
  rw [List.isPrefixOf_iff_prefix, msgOf_as_append, List.append_assoc]
  exact List.prefix_append _ _

theorem mem_checkLine {i : Nat} {raw m : Str} :
    m ∈ checkLine i raw ↔
      (rule1 (strip raw) = true ∧ m = msgImport i (strip raw)) ∨
      (rule2 (strip raw) = true ∧ m = msgReact i (strip raw)) ∨
      (rule3 (strip raw) = true ∧ m = msgTs i (strip raw)) ∨
      (rule4 (strip raw) = true ∧ m = msgComment i (strip raw)) := by
  simp only [checkLine, List.mem_append, mem_if_singleton, or_assoc]

theorem msgImport_mem_iff {i : Nat} {raw : Str} :
    msgImport i (strip raw) ∈ checkLine i raw ↔ rule1 (strip raw) = true := by
  rw [mem_checkLine]
  constructor
  · rintro (⟨h, _⟩ | ⟨_, h⟩ | ⟨_, h⟩ | ⟨_, h⟩)
    · exact h
    · exact absurd h (msgOf_ne 11 (by decide) (by decide) (by decide))
    · exact absurd h (msgOf_ne 11 (by decide) (by decide) (by decide))
    · exact absurd h (msgOf_ne 33 (by decide) (by decide) (by decide))
  · exact fun h => Or.inl ⟨h, rfl⟩

theorem msgReact_mem_iff {i : Nat} {raw : Str} :
    msgReact i (strip raw) ∈ checkLine i raw ↔ rule2 (strip raw) = true := by
  rw [mem_checkLine]
  constructor
  · rintro (⟨_, h⟩ | ⟨h, _⟩ | ⟨_, h⟩ | ⟨_, h⟩)
    · exact absurd h (msgOf_ne 11 (by decide) (by decide) (by decide))
    · exact h
    · exact absurd h (msgOf_ne 11 (by decide) (by decide) (by decide))
    · exact absurd h (msgOf_ne 11 (by decide) (by decide) (by decide))
  · exact fun h => Or.inr (Or.inl ⟨h, rfl⟩)

theorem msgTs_mem_iff {i : Nat} {raw : Str} :
    msgTs i (strip raw) ∈ checkLine i raw ↔ rule3 (strip raw) = true := by
  rw [mem_checkLine]
  constructor
  · rintro (⟨_, h⟩ | ⟨_, h⟩ | ⟨h, _⟩ | ⟨_, h⟩)
    · exact absurd h (msgOf_ne 11 (by decide) (by decide) (by decide))
    · exact absurd h (msgOf_ne 11 (by decide) (by decide) (by decide))
    · exact h
    · exact absurd h (msgOf_ne 11 (by decide) (by decide) (by decide))
  · exact fun h => Or.inr (Or.inr (Or.inl ⟨h, rfl⟩))

theorem msgComment_mem_iff {i : Nat} {raw : Str} :
    msgComment i (strip raw) ∈ checkLine i raw ↔ rule4 (strip raw) = true := by
  rw [mem_checkLine]
  constructor
  · rintro (⟨_, h⟩ | ⟨_, h⟩ | ⟨_, h⟩ | ⟨h, _⟩)
    · exact absurd h (msgOf_ne 33 (by decide) (by decide) (by decide))
    · exact absurd h (msgOf_ne 11 (by decide) (by decide) (by decide))
    · exact absurd h (msgOf_ne 11 (by decide) (by decide) (by decide))
    · exact h
  · exact fun h => Or.inr (Or.inr (Or.inr ⟨h, rfl⟩))

theorem rule1_iff (line : Str) :
    rule1 line = true ↔
      ("import ".data.isPrefixOf line = true ∧
        (containsSub "from".data line = true ∨
          containsSub "require(".data line = true)) := by
  simp [rule1, Bool.and_eq_true, Bool.or_eq_true]

theorem rule3_iff (line : Str) :
    rule3 line = true ↔
      (containsSub ":".data line = true ∧
       (containsSub "string".data line = true ∨
        containsSub "boolean".data line = true ∨
        containsSub "number".data line = true) ∧
       "--".data.isPrefixOf line = false ∧
       (containsSub "interface ".data line = true ∨
        containsSub "type ".data line = true ∨
        containsSub "const ".data line = true ∨
        containsSub "let ".data line = true ∨
        containsSub "function ".data line = true ∨
        containsSub "export ".data line = true)) := by
  constructor
  · intro h
    simp only [rule3, Bool.and_eq_true, Bool.or_eq_true, Bool.not_eq_true',
      List.any_cons, List.any_nil, or_false] at h
    tauto
  · intro h
    simp only [rule3, Bool.and_eq_true, Bool.or_eq_true, Bool.not_eq_true',
      List.any_cons, List.any_nil, or_false]
    tauto

theorem rule4_iff (line : Str) :
    rule4 line = true ↔
      ("//".data.isPrefixOf line = true ∨ "/*".data.isPrefixOf line = true ∨
        "*/".data.isSuffixOf line = true) := by
  simp [rule4, Bool.or_eq_true, or_assoc]

theorem flatMap_enumFrom_eq_range (f : Nat → Str → List Str) :
    ∀ (l : List Str) (n : Nat),
      (List.enumFrom n l).flatMap (fun p => f p.1 p.2) =
        (List.range l.length).flatMap (fun j => f (n + j) (l.getD j [])) := by
  intro l
  induction l with
  | nil => intro n; simp
  | cons a as ih =>
    intro n
    rw [List.enumFrom_cons, List.flatMap_cons, ih (n + 1)]
    rw [List.length_cons, List.range_succ_eq_map, List.flatMap_cons,
      List.flatMap_map]
    simp only [Nat.add_zero, List.getD_cons_zero, List.getD_cons_succ]
    have hfun : (fun j => f (n + 1 + j) (as.getD j [])) =
        (fun j => f (n + j.succ) (as.getD j [])) := by
      funext j
      congr 1
      omega
    rw [hfun]

theorem dropWhile_idem (p : Char → Bool) (l : Str) :
    (l.dropWhile p).dropWhile p = l.dropWhile p := by
  induction l with
  | nil => rfl
  | cons c cs ih =>
    rw [List.dropWhile_cons]
    by_cases h : p c = true
    · rw [if_pos h]
      exact ih
    · rw [if_neg h, List.dropWhile_cons, if_neg h]

theorem head?_dropWhile_false (p : Char → Bool) (l : Str) (c : Char)
    (h : (l.dropWhile p).head? = some c) : p c = false := by
  induction l with
  | nil => simp [List.dropWhile_nil] at h
  | cons d ds ih =>
    rw [List.dropWhile_cons] at h
    by_cases hd : p d = true
    · rw [if_pos hd] at h
      exact ih h
    · rw [if_neg hd] at h
      simp only [List.head?_cons, Option.some.injEq] at h
      subst h
      simp at hd
      exact hd

theorem dropWhile_eq_self_of_head? (p : Char → Bool) (l : Str)
    (h : ∀ c, l.head? = some c → p c = false) : l.dropWhile p = l := by
  cases l with
  | nil => rfl
  | cons c cs =>
    rw [List.dropWhile_cons, if_neg]
    simp [h c rfl]

theorem getLast?_dropWhile (p : Char → Bool) (l : Str)
    (h : l.dropWhile p ≠ []) : (l.dropWhile p).getLast? = l.getLast? := by
  induction l with
  | nil => simp [List.dropWhile_nil] at h
  | cons c cs ih =>
    rw [List.dropWhile_cons] at h ⊢
    by_cases hc : p c = true
    · rw [if_pos hc] at h ⊢
      rw [ih h]
      have hcs : cs ≠ [] := by
        intro hnil
        rw [hnil] at h
        exact h rfl
      cases cs with
      | nil => exact absurd rfl hcs
      | cons d ds => simp [List.getLast?_cons_cons]
    · rw [if_neg hc]

theorem head?_strip (s : Str) (c : Char) (h : (strip s).head? = some c) :
    isSpace c = false := by
  have hne : ((s.dropWhile isSpace).reverse.dropWhile isSpace) ≠ [] := by
    intro hnil
    rw [strip, hnil] at h
    simp at h
  rw [strip, List.head?_reverse, getLast?_dropWhile _ _ hne,
    List.getLast?_reverse] at h
  exact head?_dropWhile_false isSpace _ c h

theorem strip_idem (s : Str) : strip (strip s) = strip s := by
  have h1 : (strip s).dropWhile isSpace = strip s :=
    dropWhile_eq_self_of_head? _ _ (fun c hc => head?_strip s c hc)
  show (((strip s).dropWhile isSpace).reverse.dropWhile isSpace).reverse = strip s
  rw [h1]
  have h2 : (strip s).reverse = (s.dropWhile isSpace).reverse.dropWhile isSpace := by
    rw [strip, List.reverse_reverse]
  rw [h2, dropWhile_idem]
  rfl

theorem checkLine_strip (i : Nat) (raw : Str) :
    checkLine i raw = checkLine i (strip raw) := by
  simp only [checkLine, strip_idem]

/-! ### Claim theorems -/

/-- C1 (counterexample): the claim that a diagnostic's message echoes the
original untrimmed line is false.  For the one-line content
`"import x from 'y' "` (trailing space), rule 1 fires, but the produced
message contains only the trimmed line: the original line, with its
trailing space, is not a substring of the message. -/
theorem C1_counterexample :
    scanContent "import x from 'y' ".data =
      [msgImport 1 "import x from 'y'".data] ∧
    containsSub "import x from 'y' ".data
      (msgImport 1 "import x from 'y'".data) = false := by
  decide

/-- C1 (amended): every line is trimmed of surrounding whitespace before
the rules are evaluated (scanning a line is unchanged by pre-trimming
it), and each diagnostic's message echoes the trimmed line text — every
produced message ends with (and hence contains) the trimmed line, not
the original untrimmed line. -/
theorem C1_trimmed_evaluation_and_echo :
    (∀ (i : Nat) (raw : Str), checkLine i raw = checkLine i (strip raw)) ∧
    (∀ (i : Nat) (raw m : Str), m ∈ checkLine i raw →
      (∃ pre, m = pre ++ strip raw) ∧ containsSub (strip raw) m = true) := by
  constructor
  · exact checkLine_strip
  · intro i raw m hm
    rcases mem_checkLine.mp hm with ⟨_, rfl⟩ | ⟨_, rfl⟩ | ⟨_, rfl⟩ | ⟨_, rfl⟩ <;>
      simp only [msgImport, msgReact, msgTs, msgComment] <;>
      exact ⟨⟨_, msgOf_as_append i _ _⟩,
        by rw [msgOf_as_append]
           exact tail_contains _ _⟩

/-- C1 witness: the amended theorem applied to the concrete trailing-space
line used in the counterexample. -/
theorem C1_trimmed_evaluation_and_echo_witness :
    msgImport 1 "import x from 'y'".data ∈
      checkLine 1 "import x from 'y' ".data ∧
    ((∃ pre, msgImport 1 "import x from 'y'".data =
        pre ++ strip "import x from 'y' ".data) ∧
      containsSub (strip "import x from 'y' ".data)
        (msgImport 1 "import x from 'y'".data) = true) :=
  ⟨by decide, C1_trimmed_evaluation_and_echo.2 1 "import x from 'y' ".data
    (msgImport 1 "import x from 'y'".data) (by decide)⟩

/-- C2: the type-annotation rule fires on a line exactly when the trimmed
line contains a colon, contains one of "string"/"boolean"/"number", does
not start with "--", and contains one of the six keyword substrings; in
particular it never fires on a trimmed line starting with "--". -/
theorem C2_type_annotation_rule : ∀ (i : Nat) (raw : Str),
    (msgTs i (strip raw) ∈ checkLine i raw ↔
      (containsSub ":".data (strip raw) = true ∧
       (containsSub "string".data (strip raw) = true ∨
        containsSub "boolean".data (strip raw) = true ∨
        containsSub "number".data (strip raw) = true) ∧
       "--".data.isPrefixOf (strip raw) = false ∧
       (containsSub "interface ".data (strip raw) = true ∨
        containsSub "type ".data (strip raw) = true ∨
        containsSub "const ".data (strip raw) = true ∨
        containsSub "let ".data (strip raw) = true ∨
        containsSub "function ".data (strip raw) = true ∨
        containsSub "export ".data (strip raw) = true))) ∧
    ("--".data.isPrefixOf (strip raw) = true →
      msgTs i (strip raw) ∉ checkLine i raw) := by
  intro i raw
  refine ⟨msgTs_mem_iff.trans (rule3_iff _), fun h hmem => ?_⟩
  have h3 := msgTs_mem_iff.mp hmem
  simp [rule3, h] at h3

/-- C2 witness: on the SQL comment line `-- const x: string`, rule 3 does
not fire even though every other sub-condition holds. -/
theorem C2_type_annotation_rule_witness :
    msgTs 1 (strip "-- const x: string".data) ∉
      checkLine 1 "-- const x: string".data :=
  (C2_type_annotation_rule 1 "-- const x: string".data).2 (by decide)

/-- C3: the import rule fires exactly on trimmed lines starting with
"import " that contain "from" or "require("; and diagnostics carry
1-based line numbers: the scan of a file checks its 0-based j-th line
with line number j+1, and every message produced with number i starts
with the text `Line i`. -/
theorem C3_import_rule :
    (∀ content : Str,
      scanContent content =
        (List.range (splitLines content).length).flatMap
          (fun j => checkLine (j + 1) ((splitLines content).getD j []))) ∧
    (∀ (i : Nat) (raw m : Str), m ∈ checkLine i raw →
      ("Line ".data ++ natStr i).isPrefixOf m = true) ∧
    (∀ (i : Nat) (raw : Str),
      msgImport i (strip raw) ∈ checkLine i raw ↔
        ("import ".data.isPrefixOf (strip raw) = true ∧
          (containsSub "from".data (strip raw) = true ∨
            containsSub "require(".data (strip raw) = true))) := by
  refine ⟨fun content => ?_, fun i raw m hm => ?_, fun i raw => ?_⟩
  · rw [scanContent, flatMap_enumFrom_eq_range (fun i l => checkLine i l)
      (splitLines content) 1]
    have hfun : (fun j => checkLine (1 + j) ((splitLines content).getD j [])) =
        (fun j => checkLine (j + 1) ((splitLines content).getD j [])) := by
      funext j
      rw [Nat.add_comm]
    rw [hfun]
  · rcases mem_checkLine.mp hm with ⟨_, rfl⟩ | ⟨_, rfl⟩ | ⟨_, rfl⟩ | ⟨_, rfl⟩ <;>
      exact header_prefix i _ _
  · exact msgImport_mem_iff.trans (rule1_iff _)

/-- C3 witness: the diagnostic-membership part of the theorem applied to
the line `import { foo } from 'bar';`. -/
theorem C3_import_rule_witness :
    msgImport 1 (strip "import \x7b foo \x7d from 'bar';".data) ∈
      checkLine 1 "import \x7b foo \x7d from 'bar';".data ∧
    ("Line ".data ++ natStr 1).isPrefixOf
      (msgImport 1 (strip "import \x7b foo \x7d from 'bar';".data)) = true :=
  ⟨by decide, C3_import_rule.2.1 1 "import \x7b foo \x7d from 'bar';".data
    (msgImport 1 (strip "import \x7b foo \x7d from 'bar';".data)) (by decide)⟩

/-- C4: rules are independent and not short-circuited: whenever both
rule 1 and rule 2 hold on a trimmed line, the line produces the import
diagnostic immediately followed by the React-import diagnostic; and the
one-line content `import React from 'react';` produces exactly those two
diagnostics, in that order. -/
theorem C4_rules_independent :
    (∀ (i : Nat) (raw : Str), rule1 (strip raw) = true →
      rule2 (strip raw) = true →
      ∃ rest, checkLine i raw =
        msgImport i (strip raw) :: msgReact i (strip raw) :: rest) ∧
    scanContent "import React from 'react';".data =
      [msgImport 1 "import React from 'react';".data,
       msgReact 1 "import React from 'react';".data] := by
  constructor
  · intro i raw h1 h2
    refine ⟨(if rule3 (strip raw) then [msgTs i (strip raw)] else []) ++
      (if rule4 (strip raw) then [msgComment i (strip raw)] else []), ?_⟩
    simp [checkLine, h1, h2]
  · decide

/-- C4 witness: the general part applied to the concrete double-match
line. -/
theorem C4_rules_independent_witness :
    ∃ rest, checkLine 1 "import React from 'react';".data =
      msgImport 1 (strip "import React from 'react';".data) ::
        msgReact 1 (strip "import React from 'react';".data) :: rest :=
  C4_rules_independent.1 1 "import React from 'react';".data
    (by decide) (by decide)

/-- C5: a failed read yields exactly one diagnostic describing the
failure, no exception escapes, and in a batch only that file's segment of
the accumulated error list is affected. -/
theorem C5_read_failure : ∀ (e : Str) (pre post : List (Except Str Str)),
    validate_sql_file (Except.error e) = ["Error reading file: ".data ++ e] ∧
    (validate_sql_file (Except.error e)).length = 1 ∧
    validate_sql_file_exc (Except.error e) =
      Except.ok ["Error reading file: ".data ++ e] ∧
    batchErrors (pre ++ Except.error e :: post) =
      batchErrors pre ++ ["Error reading file: ".data ++ e] ++
        batchErrors post := by
  intro e pre post
  refine ⟨rfl, rfl, rfl, ?_⟩
  simp [batchErrors, List.flatMap_append, List.flatMap_cons,
    validate_sql_file]

/-- C6: the process signals success (main returns `true`, exit code 0)
exactly when zero diagnostics were produced across all files of the
batch. -/
theorem C6_exit_status : ∀ files : List (Except Str Str),
    (exit_code files = 0 ↔ batchErrors files = []) ∧
    (main files = true ↔ batchErrors files = []) := by
  intro files
  cases hb : batchErrors files with
  | nil => simp [exit_code, main, hb]
  | cons a l => simp [exit_code, main, hb]

/-- C7: the comment-syntax rule fires on a line exactly when the trimmed
line starts with "//", starts with "/*", or ends with "*/". -/
theorem C7_comment_rule : ∀ (i : Nat) (raw : Str),
    msgComment i (strip raw) ∈ checkLine i raw ↔
      ("//".data.isPrefixOf (strip raw) = true ∨
        "/*".data.isPrefixOf (strip raw) = true ∨
        "*/".data.isSuffixOf (strip raw) = true) :=
  fun _ _ => msgComment_mem_iff.trans (rule4_iff _)

/-- C8: validation is deterministic: equal contents yield identical
ordered diagnostic sequences, and the sequence follows the nested
iteration — lines in order, each contributing its per-line diagnostics
with rules in a fixed order. -/
theorem C8_deterministic : ∀ (c₁ c₂ : Str), c₁ = c₂ →
    scanContent c₁ = scanContent c₂ ∧
    scanContent c₁ =
      (List.enumFrom 1 (splitLines c₁)).flatMap
        (fun p => checkLine p.1 p.2) := by
  intro c₁ c₂ h
  exact ⟨by rw [h], rfl⟩

/-- C8 witness: the theorem applied to two copies of the same concrete
content. -/
theorem C8_deterministic_witness :
    scanContent "// x\nSELECT 1;".data = scanContent "// x\nSELECT 1;".data ∧
    scanContent "// x\nSELECT 1;".data =
      (List.enumFrom 1 (splitLines "// x\nSELECT 1;".data)).flatMap
        (fun p => checkLine p.1 p.2) :=
  C8_deterministic "// x\nSELECT 1;".data "// x\nSELECT 1;".data rfl

/-- C9: `validate_sql_file` is total at its public interface: for every
read outcome it returns a list of diagnostic strings and never lets an
exception escape — the explicit-exception model always returns `.ok`. -/
theorem C9_total : ∀ r : Except Str Str,
    ∃ es : List Str, validate_sql_file_exc r = Except.ok es ∧
      validate_sql_file r = es := by
  intro r
  cases r with
  | ok c => exact ⟨scanContent c, rfl, rfl⟩
  | error e => exact ⟨["Error reading file: ".data ++ e], rfl, rfl⟩

/-- C10: the "--" prefix exempts a line only from rule 3: on trimmed
lines starting with "--", rules 1, 2 and 4 still fire exactly under
their own conditions, a line containing "import React" is still flagged
by rule 2, and concretely the content `-- import React` produces the
React-import diagnostic. -/
theorem C10_sql_comment_only_exempts_rule3 :
    (∀ (i : Nat) (raw : Str), "--".data.isPrefixOf (strip raw) = true →
      (msgImport i (strip raw) ∈ checkLine i raw ↔ rule1 (strip raw) = true) ∧
      (msgReact i (strip raw) ∈ checkLine i raw ↔ rule2 (strip raw) = true) ∧
      (msgComment i (strip raw) ∈ checkLine i raw ↔ rule4 (strip raw) = true) ∧
      (containsSub "import React".data (strip raw) = true →
        msgReact i (strip raw) ∈ checkLine i raw)) ∧
    scanContent "-- import React".data =
      [msgReact 1 "-- import React".data] := by
  constructor
  · intro i raw _
    refine ⟨msgImport_mem_iff, msgReact_mem_iff, msgComment_mem_iff,
      fun hc => msgReact_mem_iff.mpr ?_⟩
    simp [rule2, hc]
  · decide

/-- C10 witness: the general part applied to the concrete SQL-comment
line `-- import React`, whose trimmed form contains "import React". -/
theorem C10_sql_comment_only_exempts_rule3_witness :
    msgReact 1 (strip "-- import React".data) ∈
      checkLine 1 "-- import React".data :=
  (C10_sql_comment_only_exempts_rule3.1 1 "-- import React".data
    (by decide)).2.2.2 (by decide)

end SqlValidator
